import Mathlib

/-! Shallow embedding of the distributed rate limiter middleware
(rate limiter module of techblog-api) together with proofs about it.

The embedding models:
- the client identity resolver (`getClientIP`, `hashString`);
- the distributed counter store (Redis `INCR`/`PEXPIRE`/`PTTL`) as an
  association list of keyed counters with absolute expiry timestamps;
- the in-process fallback table (`handleInMemoryRateLimit`);
- the policy engine (`rateLimiter`), with an explicit behaviour parameter
  injecting distributed-store availability and operation failures, and an
  explicit environment (production/development, proxy trust).

All definitions are translated from the TypeScript source; machine time is a
natural-number millisecond clock passed explicitly.
-/

/-- Association list lookup (first binding wins), mirroring `Map.get`. -/
def lookupAssoc {α : Type} : List (String × α) → String → Option α
  | [], _ => none
  | (k, v) :: rest, key => if k = key then some v else lookupAssoc rest key

/-- Association list update (replace in place, append if absent), mirroring `Map.set`. -/
def setAssoc {α : Type} : List (String × α) → String → α → List (String × α)
  | [], key, v => [(key, v)]
  | (k, w) :: rest, key, v =>
      if k = key then (k, v) :: rest else (k, w) :: setAssoc rest key v

/-- An HTTP request: the inbound headers visible to the middleware
(header names are the lower-case names the source queries). -/
structure Request where
  headers : List (String × String)
deriving DecidableEq, Repr

/-- Header lookup, `c.req.header(name)`: `some` when present, `none` when absent. -/
def lookupHeader (req : Request) (name : String) : Option String :=
  lookupAssoc req.headers name

/-- Header lookup composed with JavaScript truthiness: an empty string is falsy,
so `if (header) ...` treats a present-but-empty header like a missing one. -/
def getHeaderT (req : Request) (name : String) : Option String :=
  match lookupHeader req name with
  | some s => if s = "" then none else some s
  | none => none

/-- JavaScript `String.prototype.split(",")`: split on every comma; the result
is never empty (an empty input yields `[""]`). -/
def splitCommaAux : List Char → List Char → List String
  | [], acc => [String.mk acc.reverse]
  | c :: cs, acc =>
      if c = ',' then String.mk acc.reverse :: splitCommaAux cs []
      else splitCommaAux cs (c :: acc)

/-- Split a string on commas, JavaScript style. -/
def splitComma (s : String) : List String :=
  splitCommaAux s.data []

/-- Drop leading whitespace characters from a character list. -/
def dropLeadingWs : List Char → List Char
  | [] => []
  | c :: cs => if c.isWhitespace then dropLeadingWs cs else c :: cs

/-- JavaScript `String.prototype.trim()`: strip whitespace from both ends. -/
def trimString (s : String) : String :=
  String.mk (List.reverse (dropLeadingWs (List.reverse (dropLeadingWs s.data))))

/-- Wrap an integer to the signed 32-bit range, the effect of JavaScript
`ToInt32` (used by `<<` and `&`): congruent mod `2^32`, result in
`[-2^31, 2^31)`. -/
def js32 (n : Int) : Int :=
  (n + 2147483648) % 4294967296 - 2147483648

/-- One step of the source's rolling hash:
`hash = (hash << 5) - hash + char; hash = hash & hash`.
`hash << 5` is a 32-bit shift, i.e. `js32 (hash * 32)`; the subtraction and
addition are exact in doubles; `hash & hash` wraps the result to int32. -/
def hashStep (h : Int) (c : Nat) : Int :=
  js32 (js32 (h * 32) - h + c)

/-- The rolling hash of a whole string (fold of `hashStep` over char codes,
starting from 0), as the source's loop computes it. -/
def hashInt (s : String) : Int :=
  s.data.foldl (fun h c => hashStep h c.toNat) 0

/-- Digit character for base 36: `0`-`9` then `a`-`z`, as JavaScript
`Number.prototype.toString(36)` renders digits. -/
def digitChar36 (n : Nat) : Char :=
  if n < 10 then Char.ofNat (48 + n) else Char.ofNat (87 + n)

/-- Fuel-driven base-36 digit accumulation (fuel bounds the digit count). -/
def toBase36Go : Nat → Nat → List Char → List Char
  | 0, _, acc => acc
  | _ + 1, 0, acc => acc
  | fuel + 1, n + 1, acc =>
      toBase36Go fuel ((n + 1) / 36) (digitChar36 ((n + 1) % 36) :: acc)

/-- JavaScript `n.toString(36)` for a non-negative integer. -/
def toBase36 (n : Nat) : String :=
  if n = 0 then "0" else String.mk (toBase36Go n n [])

/-- The source's `hashString`: rolling 32-bit hash, absolute value, base-36. -/
def hashString (s : String) : String :=
  toBase36 (Int.natAbs (hashInt s))

/-- The source's `getClientIP`: with proxy trust, consult
`x-forwarded-for` (first comma-separated entry, trimmed, if truthy), then
`x-real-ip`, then `cf-connecting-ip`; otherwise (or when none is usable)
synthesize the `unknown-` fingerprint from User-Agent and Accept-Language. -/
def getClientIP (trustProxy : Bool) (req : Request) : String :=
  let proxyResult : Option String :=
    if trustProxy then
      (match getHeaderT req "x-forwarded-for" with
       | some fwd =>
           let firstIP := (splitComma fwd).headD ""
           if firstIP = "" then none else some (trimString firstIP)
       | none => none).orElse fun _ =>
      (getHeaderT req "x-real-ip").orElse fun _ =>
      getHeaderT req "cf-connecting-ip"
    else none
  match proxyResult with
  | some ip => ip
  | none =>
      let userAgent := (lookupHeader req "user-agent").getD ""
      let acceptLanguage := (lookupHeader req "accept-language").getD ""
      "unknown-" ++ hashString (userAgent ++ acceptLanguage)

/-- One entry of the in-process fallback table (`RateLimitEntry` in the source). -/
structure RateLimitEntry where
  count : Nat
  resetTime : Nat
deriving DecidableEq, Repr

/-- The in-process fallback table (`rateLimitStore`), as an association list. -/
abbrev FallbackState := List (String × RateLimitEntry)

/-- One distributed counter: its value and its absolute expiry time in ms
(`none` when no TTL has been set). -/
structure RedisEntry where
  value : Nat
  expireAt : Option Nat
deriving DecidableEq, Repr

/-- The distributed counter store, as an association list. -/
abbrev RedisState := List (String × RedisEntry)

/-- Live lookup in the distributed store: a key whose expiry time has been
reached counts as absent. -/
def redisLookup (st : RedisState) (now : Nat) (key : String) : Option RedisEntry :=
  match lookupAssoc st key with
  | some e =>
      match e.expireAt with
      | some t => if now < t then some e else none
      | none => some e
  | none => none

/-- Redis `INCR`: increment a live counter (keeping its expiry), or create a
fresh counter at 1 with no expiry. Returns the post-increment value. -/
def redisIncr (st : RedisState) (now : Nat) (key : String) : Nat × RedisState :=
  match redisLookup st now key with
  | some e =>
      (e.value + 1, setAssoc st key { value := e.value + 1, expireAt := e.expireAt })
  | none => (1, setAssoc st key { value := 1, expireAt := none })

/-- Redis `PEXPIRE key ms`: set the expiry of a live key to `now + ms`;
no effect on an absent key. -/
def redisPexpire (st : RedisState) (now : Nat) (key : String) (ms : Nat) : RedisState :=
  match redisLookup st now key with
  | some e => setAssoc st key { value := e.value, expireAt := some (now + ms) }
  | none => st

/-- Redis `PTTL`: remaining ms of a live key with an expiry, `-1` for a live
key with no expiry, `-2` for an absent key. -/
def redisPttl (st : RedisState) (now : Nat) (key : String) : Int :=
  match redisLookup st now key with
  | some e =>
      match e.expireAt with
      | some t => (t : Int) - (now : Int)
      | none => -1
  | none => -2

/-- A record of a distributed-store operation the middleware completed. -/
inductive StoreOp where
  | incr (key : String)
  | pexpire (key : String) (ms : Nat)
  | pttl (key : String)
deriving DecidableEq, Repr

/-- Behaviour of the distributed store for one evaluation:
`unavailable` models `getRedisClient()` returning null or `isRedisAvailable()`
false; the `fail*` constructors make the named operation throw when invoked;
`ok` lets every operation succeed. -/
inductive RedisBehavior where
  | ok
  | unavailable
  | failIncr
  | failPexpire
  | failPttl
deriving DecidableEq, Repr

/-- The body of the `try` block: `incr`, conditional `pexpire`, `pttl`.
On success returns the post-increment count, the `pttl` result, the new store
state and the trace of completed operations; on a thrown operation returns the
partially mutated state, how many increments completed, and the trace. -/
def redisAttempt (b : RedisBehavior) (key : String) (windowMs now : Nat)
    (st : RedisState) :
    Except (RedisState × Nat × List StoreOp) (Nat × Int × RedisState × List StoreOp) :=
  if b = .failIncr then .error (st, 0, [])
  else
    let (currentCount, st1) := redisIncr st now key
    if currentCount = 1 then
      if b = .failPexpire then .error (st1, 1, [.incr key])
      else
        let st2 := redisPexpire st1 now key windowMs
        if b = .failPttl then .error (st2, 1, [.incr key, .pexpire key windowMs])
        else .ok (currentCount, redisPttl st2 now key, st2,
                  [.incr key, .pexpire key windowMs, .pttl key])
    else
      if b = .failPttl then .error (st1, 1, [.incr key])
      else .ok (currentCount, redisPttl st1 now key, st1, [.incr key, .pttl key])

/-- Deployment environment flag (`process.env.NODE_ENV`). -/
inductive NodeEnv where
  | production
  | development
deriving DecidableEq, Repr

/-- Process-level configuration the middleware reads:
environment flag and `TRUST_PROXY`. -/
structure EnvConfig where
  nodeEnv : NodeEnv
  trustProxy : Bool
deriving DecidableEq, Repr

/-- The middleware's options object (`RateLimitOptions` in the source);
`keyGenerator`, `message` and `skip` are optional with the source's defaults. -/
structure RateLimitOptions where
  limit : Nat
  windowMs : Nat
  keyGenerator : Option (Request → String)
  message : Option String
  skip : Option (Request → Bool)

/-- Whether this request is skipped (`skip && skip(c)`). -/
def skipOf (opts : RateLimitOptions) (req : Request) : Bool :=
  match opts.skip with
  | some f => f req
  | none => false

/-- The resolved client key before prefixing (default: `getClientIP`). -/
def keyOf (opts : RateLimitOptions) (trustProxy : Bool) (req : Request) : String :=
  match opts.keyGenerator with
  | some f => f req
  | none => getClientIP trustProxy req

/-- The configured rejection message (source default string if absent). -/
def messageOf (opts : RateLimitOptions) : String :=
  match opts.message with
  | some m => m
  | none => "Too many requests, please try again later"

/-- How one evaluation of the middleware ended. -/
inductive Outcome where
  | passed
  | limited
  | unavailable
deriving DecidableEq, Repr

/-- A JSON error body `{error, message, retryAfter?}` as the source builds it. -/
structure JsonBody where
  error : String
  message : String
  retryAfter : Option Nat
deriving DecidableEq, Repr

/-- The observable result of one evaluation: outcome, HTTP status (when a
response was produced by the middleware itself), response headers in the order
they were set, JSON body, the two stores afterwards, the trace of completed
distributed operations, the count and remaining-window ms the evaluation
computed (when it counted), and how many distributed / local increments it
performed. -/
structure EvalResult where
  outcome : Outcome
  status : Option Nat
  headers : List (String × String)
  body : Option JsonBody
  redis : RedisState
  fallback : FallbackState
  trace : List StoreOp
  count : Option Nat
  resetMs : Option Nat
  distIncrs : Nat
  localIncrs : Nat
deriving DecidableEq, Repr

/-- The entry computation at the head of the source's
`handleInMemoryRateLimit`: reset or create the entry when the key is absent
or its window expired (`resetTime < now`), then increment its count. -/
def fallbackEntry (fallback : FallbackState) (key : String)
    (now windowMs : Nat) : RateLimitEntry :=
  let entry0 :=
    match lookupAssoc fallback key with
    | some e =>
        if e.resetTime < now then RateLimitEntry.mk 0 (now + windowMs) else e
    | none => RateLimitEntry.mk 0 (now + windowMs)
  RateLimitEntry.mk (entry0.count + 1) entry0.resetTime

/-- The source's `handleInMemoryRateLimit` continued: store the incremented
entry, emit headers, and reject when over the limit. `redisSt`, `tr` and
`dist` thread through what already happened on the distributed side before
falling back. -/
def handleInMemoryRateLimit (key : String) (limit windowMs : Nat)
    (message : String) (now : Nat) (redisSt : RedisState) (tr : List StoreOp)
    (dist : Nat) (fallback : FallbackState) : EvalResult :=
  let entry := fallbackEntry fallback key now windowMs
  let fallback2 := setAssoc fallback key entry
  let remaining : Nat := limit - entry.count
  let resetMs : Nat := entry.resetTime - now
  let resetSeconds : Nat := (resetMs + 999) / 1000
  let baseHeaders : List (String × String) :=
    [("X-RateLimit-Limit", toString limit),
     ("X-RateLimit-Remaining", toString remaining),
     ("X-RateLimit-Reset", toString resetSeconds)]
  if limit < entry.count then
    { outcome := .limited, status := some 429,
      headers := baseHeaders ++ [("Retry-After", toString resetSeconds)],
      body := some { error := "Rate limit exceeded", message := message,
                     retryAfter := some resetSeconds },
      redis := redisSt, fallback := fallback2, trace := tr,
      count := some entry.count, resetMs := some resetMs,
      distIncrs := dist, localIncrs := 1 }
  else
    { outcome := .passed, status := none, headers := baseHeaders, body := none,
      redis := redisSt, fallback := fallback2, trace := tr,
      count := some entry.count, resetMs := some resetMs,
      distIncrs := dist, localIncrs := 1 }

/-- The middleware produced by the source's `rateLimiter(options)`, evaluated
on one request: skip check, key resolution, distributed attempt with the
environment-dependent failure policy, headers and threshold check. -/
def rateLimiter (opts : RateLimitOptions) (env : EnvConfig) (b : RedisBehavior)
    (req : Request) (now : Nat) (redisSt : RedisState)
    (fallback : FallbackState) : EvalResult :=
  if skipOf opts req then
    { outcome := .passed, status := none, headers := [], body := none,
      redis := redisSt, fallback := fallback, trace := [], count := none,
      resetMs := none, distIncrs := 0, localIncrs := 0 }
  else
    let key := "ratelimit:" ++ keyOf opts env.trustProxy req
    if b = .unavailable then
      handleInMemoryRateLimit key opts.limit opts.windowMs (messageOf opts)
        now redisSt [] 0 fallback
    else
      match redisAttempt b key opts.windowMs now redisSt with
      | .error (st1, n, tr) =>
          if env.nodeEnv = .production then
            { outcome := .unavailable, status := some 503, headers := [],
              body := some { error := "Service temporarily unavailable",
                             message := "Rate limiting service is unavailable. Please try again later.",
                             retryAfter := none },
              redis := st1, fallback := fallback, trace := tr, count := none,
              resetMs := none, distIncrs := n, localIncrs := 0 }
          else
            handleInMemoryRateLimit key opts.limit opts.windowMs (messageOf opts)
              now st1 tr n fallback
      | .ok (currentCount, ttl, st2, tr) =>
          let resetMs : Nat := if 0 < ttl then ttl.toNat else opts.windowMs
          let remaining : Nat := opts.limit - currentCount
          let resetSeconds : Nat := (resetMs + 999) / 1000
          let baseHeaders : List (String × String) :=
            [("X-RateLimit-Limit", toString opts.limit),
             ("X-RateLimit-Remaining", toString remaining),
             ("X-RateLimit-Reset", toString resetSeconds)]
          if opts.limit < currentCount then
            { outcome := .limited, status := some 429,
              headers := baseHeaders ++ [("Retry-After", toString resetSeconds)],
              body := some { error := "Rate limit exceeded",
                             message := messageOf opts,
                             retryAfter := some resetSeconds },
              redis := st2, fallback := fallback, trace := tr,
              count := some currentCount, resetMs := some resetMs,
              distIncrs := 1, localIncrs := 0 }
          else
            { outcome := .passed, status := none, headers := baseHeaders,
              body := none, redis := st2, fallback := fallback, trace := tr,
              count := some currentCount, resetMs := some resetMs,
              distIncrs := 1, localIncrs := 0 }

/-- Evaluate the middleware on a sequence of arrivals of the same request at
the given times, threading both stores through. -/
def runRequests (opts : RateLimitOptions) (env : EnvConfig) (b : RedisBehavior)
    (req : Request) : List Nat → RedisState → FallbackState → List EvalResult
  | [], _, _ => []
  | t :: ts, rs, fs =>
      let r := rateLimiter opts env b req t rs fs
      r :: runRequests opts env b req ts r.redis r.fallback

/-! Helper lemmas about the maps and the evaluation branches. -/

/-- Updating a key then looking it up yields the stored value. -/
theorem lookupAssoc_setAssoc_self {α : Type} (m : List (String × α))
    (k : String) (v : α) : lookupAssoc (setAssoc m k v) k = some v := by
  induction m with
  | nil => simp [setAssoc, lookupAssoc]
  | cons p rest ih =>
      obtain ⟨k', w⟩ := p
      by_cases h : k' = k <;> simp [setAssoc, lookupAssoc, h, ih]

/-- Nat truncated subtraction computes `Math.max(0, a - b)` over integers. -/
theorem remaining_max (a b : Nat) :
    (max (0 : Int) ((a : Int) - (b : Int))).toNat = a - b := by
  rcases le_total ((a : Int) - (b : Int)) 0 with h | h
  · rw [max_eq_left h]; omega
  · rw [max_eq_right h]; omega

/-- All projections of the in-memory fallback handler in one statement. -/
theorem handleInMemory_proj (key : String) (limit windowMs : Nat)
    (message : String) (now : Nat) (rs : RedisState) (tr : List StoreOp)
    (dist : Nat) (fb : FallbackState) :
    (handleInMemoryRateLimit key limit windowMs message now rs tr dist fb).localIncrs = 1 ∧
    (handleInMemoryRateLimit key limit windowMs message now rs tr dist fb).distIncrs = dist ∧
    (handleInMemoryRateLimit key limit windowMs message now rs tr dist fb).redis = rs ∧
    (handleInMemoryRateLimit key limit windowMs message now rs tr dist fb).trace = tr ∧
    (handleInMemoryRateLimit key limit windowMs message now rs tr dist fb).fallback
      = setAssoc fb key (fallbackEntry fb key now windowMs) ∧
    (handleInMemoryRateLimit key limit windowMs message now rs tr dist fb).count
      = some (fallbackEntry fb key now windowMs).count ∧
    (handleInMemoryRateLimit key limit windowMs message now rs tr dist fb).resetMs
      = some ((fallbackEntry fb key now windowMs).resetTime - now) ∧
    (handleInMemoryRateLimit key limit windowMs message now rs tr dist fb).outcome
      = (if limit < (fallbackEntry fb key now windowMs).count
         then Outcome.limited else Outcome.passed) ∧
    (handleInMemoryRateLimit key limit windowMs message now rs tr dist fb).status
      = (if limit < (fallbackEntry fb key now windowMs).count
         then some 429 else none) ∧
    (handleInMemoryRateLimit key limit windowMs message now rs tr dist fb).headers
      = [("X-RateLimit-Limit", toString limit),
         ("X-RateLimit-Remaining", toString (limit - (fallbackEntry fb key now windowMs).count)),
         ("X-RateLimit-Reset", toString (((fallbackEntry fb key now windowMs).resetTime - now + 999) / 1000))] ++
        (if limit < (fallbackEntry fb key now windowMs).count
         then [("Retry-After", toString (((fallbackEntry fb key now windowMs).resetTime - now + 999) / 1000))]
         else []) ∧
    (handleInMemoryRateLimit key limit windowMs message now rs tr dist fb).body
      = (if limit < (fallbackEntry fb key now windowMs).count
         then some { error := "Rate limit exceeded", message := message,
                     retryAfter := some (((fallbackEntry fb key now windowMs).resetTime - now + 999) / 1000) }
         else none) := by
  unfold handleInMemoryRateLimit
  by_cases h : limit < (fallbackEntry fb key now windowMs).count <;>
    simp [h]

/-- When the skip predicate accepts, the evaluation is the identity record. -/
theorem rateLimiter_skip (opts : RateLimitOptions) (env : EnvConfig)
    (b : RedisBehavior) (req : Request) (now : Nat) (rs : RedisState)
    (fs : FallbackState) (h : skipOf opts req = true) :
    rateLimiter opts env b req now rs fs =
      { outcome := .passed, status := none, headers := [], body := none,
        redis := rs, fallback := fs, trace := [], count := none,
        resetMs := none, distIncrs := 0, localIncrs := 0 } := by
  simp [rateLimiter, h]

/-- When the distributed store is unavailable, the evaluation is the fallback
handler, in every environment. -/
theorem rateLimiter_unavail (opts : RateLimitOptions) (env : EnvConfig)
    (req : Request) (now : Nat) (rs : RedisState) (fs : FallbackState)
    (h : skipOf opts req = false) :
    rateLimiter opts env .unavailable req now rs fs =
      handleInMemoryRateLimit ("ratelimit:" ++ keyOf opts env.trustProxy req)
        opts.limit opts.windowMs (messageOf opts) now rs [] 0 fs := by
  simp [rateLimiter, h]

/-- When the distributed attempt succeeds, the evaluation's projections. -/
theorem rateLimiter_ok_proj (opts : RateLimitOptions) (env : EnvConfig)
    (b : RedisBehavior) (req : Request) (now : Nat) (rs : RedisState)
    (fs : FallbackState) (cnt : Nat) (ttl : Int) (st2 : RedisState)
    (tr : List StoreOp)
    (hskip : skipOf opts req = false) (hb : ¬ b = RedisBehavior.unavailable)
    (hatt : redisAttempt b ("ratelimit:" ++ keyOf opts env.trustProxy req)
      opts.windowMs now rs = .ok (cnt, ttl, st2, tr)) :
    (rateLimiter opts env b req now rs fs).outcome
      = (if opts.limit < cnt then Outcome.limited else Outcome.passed) ∧
    (rateLimiter opts env b req now rs fs).status
      = (if opts.limit < cnt then some 429 else none) ∧
    (rateLimiter opts env b req now rs fs).redis = st2 ∧
    (rateLimiter opts env b req now rs fs).fallback = fs ∧
    (rateLimiter opts env b req now rs fs).trace = tr ∧
    (rateLimiter opts env b req now rs fs).count = some cnt ∧
    (rateLimiter opts env b req now rs fs).resetMs
      = some (if 0 < ttl then ttl.toNat else opts.windowMs) ∧
    (rateLimiter opts env b req now rs fs).distIncrs = 1 ∧
    (rateLimiter opts env b req now rs fs).localIncrs = 0 ∧
    (rateLimiter opts env b req now rs fs).headers
      = [("X-RateLimit-Limit", toString opts.limit),
         ("X-RateLimit-Remaining", toString (opts.limit - cnt)),
         ("X-RateLimit-Reset",
          toString (((if 0 < ttl then ttl.toNat else opts.windowMs) + 999) / 1000))] ++
        (if opts.limit < cnt
         then [("Retry-After",
                toString (((if 0 < ttl then ttl.toNat else opts.windowMs) + 999) / 1000))]
         else []) ∧
    (rateLimiter opts env b req now rs fs).body
      = (if opts.limit < cnt
         then some { error := "Rate limit exceeded", message := messageOf opts,
                     retryAfter := some (((if 0 < ttl then ttl.toNat else opts.windowMs) + 999) / 1000) }
         else none) := by
  unfold rateLimiter
  rw [hskip]
  simp only [Bool.false_eq_true, if_false, hb, hatt]
  by_cases h : opts.limit < cnt <;> simp [h]

/-- When the distributed attempt throws in production, the evaluation is the
503 response and the fallback table is untouched. -/
theorem rateLimiter_error_prod (opts : RateLimitOptions) (env : EnvConfig)
    (b : RedisBehavior) (req : Request) (now : Nat) (rs : RedisState)
    (fs : FallbackState) (st1 : RedisState) (n : Nat) (tr : List StoreOp)
    (hskip : skipOf opts req = false) (hb : ¬ b = RedisBehavior.unavailable)
    (henv : env.nodeEnv = NodeEnv.production)
    (hatt : redisAttempt b ("ratelimit:" ++ keyOf opts env.trustProxy req)
      opts.windowMs now rs = .error (st1, n, tr)) :
    rateLimiter opts env b req now rs fs =
      { outcome := .unavailable, status := some 503, headers := [],
        body := some { error := "Service temporarily unavailable",
                       message := "Rate limiting service is unavailable. Please try again later.",
                       retryAfter := none },
        redis := st1, fallback := fs, trace := tr, count := none,
        resetMs := none, distIncrs := n, localIncrs := 0 } := by
  unfold rateLimiter
  rw [hskip]
  simp only [Bool.false_eq_true, if_false, hb, hatt, henv]
  simp

/-- When the distributed attempt throws in development, the evaluation falls
back to the in-memory handler on the partially mutated store state. -/
theorem rateLimiter_error_dev (opts : RateLimitOptions) (env : EnvConfig)
    (b : RedisBehavior) (req : Request) (now : Nat) (rs : RedisState)
    (fs : FallbackState) (st1 : RedisState) (n : Nat) (tr : List StoreOp)
    (hskip : skipOf opts req = false) (hb : ¬ b = RedisBehavior.unavailable)
    (henv : env.nodeEnv = NodeEnv.development)
    (hatt : redisAttempt b ("ratelimit:" ++ keyOf opts env.trustProxy req)
      opts.windowMs now rs = .error (st1, n, tr)) :
    rateLimiter opts env b req now rs fs =
      handleInMemoryRateLimit ("ratelimit:" ++ keyOf opts env.trustProxy req)
        opts.limit opts.windowMs (messageOf opts) now st1 tr n fs := by
  unfold rateLimiter
  rw [hskip]
  simp only [Bool.false_eq_true, if_false, hb, hatt, henv]
  simp

/-- A fully successful attempt on an absent key: count 1, expiry set, TTL is
the whole window. -/
theorem redisAttempt_fresh (K : String) (W t : Nat) (hW : 1 ≤ W) :
    redisAttempt .ok K W t [] =
      .ok (1, (W : Int), [(K, RedisEntry.mk 1 (some (t + W)))],
           [.incr K, .pexpire K W, .pttl K]) := by
  have hlt : t < t + W := by omega
  simp [redisAttempt, redisIncr, redisLookup, lookupAssoc, setAssoc,
        redisPexpire, redisPttl, hlt]

/-- A fully successful attempt on a live counter: increment, keep the expiry,
TTL is the residual window. -/
theorem redisAttempt_live (K : String) (W t v T : Nat) (hv : 1 ≤ v)
    (ht : t < T) :
    redisAttempt .ok K W t [(K, RedisEntry.mk v (some T))] =
      .ok (v + 1, (T : Int) - (t : Int), [(K, RedisEntry.mk (v + 1) (some T))],
           [.incr K, .pttl K]) := by
  have hne : ¬ v + 1 = 1 := by omega
  simp [redisAttempt, redisIncr, redisLookup, lookupAssoc, setAssoc,
        redisPttl, ht, hne]

/-- The attempt never throws when every operation succeeds or when the store
was never consulted as available. -/
theorem redisAttempt_not_error (b : RedisBehavior) (K : String) (W t : Nat)
    (st : RedisState) (hb : b = RedisBehavior.ok ∨ b = RedisBehavior.unavailable) :
    ∀ e, ¬ redisAttempt b K W t st = .error e := by
  intro e
  rcases hb with hb | hb <;> subst hb <;>
    simp [redisAttempt] <;>
    rcases redisIncr st t K with ⟨c, st1⟩ <;>
    by_cases hc : c = 1 <;> simp [hc]

/-- A failing increment throws before any mutation. -/
theorem redisAttempt_failIncr (K : String) (W t : Nat) (st : RedisState) :
    redisAttempt .failIncr K W t st = .error (st, 0, []) := by
  simp [redisAttempt]

/-- A failing TTL read throws after exactly one completed increment. -/
theorem redisAttempt_failPttl (K : String) (W t : Nat) (st : RedisState) :
    ∃ st' tr, redisAttempt .failPttl K W t st = .error (st', 1, tr) := by
  unfold redisAttempt
  rcases h : redisIncr st t K with ⟨c, st1⟩
  by_cases hc : c = 1 <;> simp [h, hc]

/-- A failing expiry-set throws (after one completed increment) exactly when
the increment created the counter. -/
theorem redisAttempt_failPexpire_one (K : String) (W t : Nat) (st : RedisState)
    (h1 : (redisIncr st t K).1 = 1) :
    redisAttempt .failPexpire K W t st
      = .error ((redisIncr st t K).2, 1, [.incr K]) := by
  unfold redisAttempt
  rcases h : redisIncr st t K with ⟨c, st1⟩
  rw [h] at h1
  simp at h1
  simp [h1]

/-- When the increment did not create the counter, a `failPexpire` behaviour
never fires: the attempt succeeds without touching the expiry. -/
theorem redisAttempt_failPexpire_ne (K : String) (W t : Nat) (st : RedisState)
    (h1 : ¬ (redisIncr st t K).1 = 1) :
    redisAttempt .failPexpire K W t st
      = .ok ((redisIncr st t K).1, redisPttl (redisIncr st t K).2 t K,
             (redisIncr st t K).2, [.incr K, .pttl K]) := by
  unfold redisAttempt
  rcases h : redisIncr st t K with ⟨c, st1⟩
  rw [h] at h1
  simp at h1
  simp [h1]

/-- Shape of a fully successful attempt, by whether the increment created the
counter: the expiry is set exactly in the creating case. -/
theorem redisAttempt_ok_shape (K : String) (W t : Nat) (st : RedisState) :
    (redisAttempt .ok K W t st =
       .ok ((redisIncr st t K).1,
            redisPttl (redisPexpire (redisIncr st t K).2 t K W) t K,
            redisPexpire (redisIncr st t K).2 t K W,
            [.incr K, .pexpire K W, .pttl K])
       ∧ (redisIncr st t K).1 = 1) ∨
    (redisAttempt .ok K W t st =
       .ok ((redisIncr st t K).1, redisPttl (redisIncr st t K).2 t K,
            (redisIncr st t K).2, [.incr K, .pttl K])
       ∧ ¬ (redisIncr st t K).1 = 1) := by
  unfold redisAttempt
  rcases h : redisIncr st t K with ⟨c, st1⟩
  by_cases hc : c = 1
  · left; simp [h, hc]
  · right; simp [h, hc]

/-- An increment that returns a value other than 1 found a live entry and
preserved its expiry. -/
theorem redisIncr_ne_one (st : RedisState) (t : Nat) (K : String)
    (h : ¬ (redisIncr st t K).1 = 1) :
    ∃ e, redisLookup st t K = some e ∧
      (redisIncr st t K).1 = e.value + 1 ∧
      (redisIncr st t K).2 = setAssoc st K (RedisEntry.mk (e.value + 1) e.expireAt) := by
  unfold redisIncr at *
  cases hl : redisLookup st t K <;> simp [hl] at h ⊢

/-! Concrete fixtures used by witnesses and counterexamples. -/

/-- A request with no headers at all. -/
def reqEmpty : Request := { headers := [] }

/-- Development environment, proxy trust off. -/
def envDevC : EnvConfig := { nodeEnv := .development, trustProxy := false }

/-- Production environment, proxy trust off. -/
def envProdC : EnvConfig := { nodeEnv := .production, trustProxy := false }

/-- A plain policy: limit 5, one-minute window, all defaults. -/
def optsBasic : RateLimitOptions :=
  { limit := 5, windowMs := 60000, keyGenerator := none, message := none,
    skip := none }

/-- A policy whose skip predicate accepts every request. -/
def optsSkipAll : RateLimitOptions :=
  { limit := 5, windowMs := 60000, keyGenerator := none, message := none,
    skip := some (fun _ => true) }

/-- A policy with limit 1 and a one-second window, all defaults. -/
def optsOne : RateLimitOptions :=
  { limit := 1, windowMs := 1000, keyGenerator := none, message := none,
    skip := none }

/-! The claims. -/

/-- C7: for every request the policy's skip predicate accepts, the middleware
forwards the request with no rate-limit or Retry-After headers, performs no
distributed operation, and leaves both the distributed store and the fallback
table unchanged. -/
theorem skip_bypasses_all_counting (opts : RateLimitOptions) (env : EnvConfig)
    (b : RedisBehavior) (req : Request) (now : Nat) (rs : RedisState)
    (fs : FallbackState) (hskip : skipOf opts req = true) :
    (rateLimiter opts env b req now rs fs).outcome = Outcome.passed ∧
    (rateLimiter opts env b req now rs fs).headers = [] ∧
    (rateLimiter opts env b req now rs fs).redis = rs ∧
    (rateLimiter opts env b req now rs fs).fallback = fs ∧
    (rateLimiter opts env b req now rs fs).trace = [] ∧
    (rateLimiter opts env b req now rs fs).distIncrs = 0 ∧
    (rateLimiter opts env b req now rs fs).localIncrs = 0 := by
  rw [rateLimiter_skip opts env b req now rs fs hskip]
  exact ⟨rfl, rfl, rfl, rfl, rfl, rfl, rfl⟩

/-- Witness for C7 at a concrete skipping policy. -/
theorem skip_bypasses_all_counting_witness :
    skipOf optsSkipAll reqEmpty = true ∧
    (rateLimiter optsSkipAll envDevC .ok reqEmpty 0 [] []).outcome = Outcome.passed ∧
    (rateLimiter optsSkipAll envDevC .ok reqEmpty 0 [] []).fallback = [] :=
  ⟨by decide,
   (skip_bypasses_all_counting optsSkipAll envDevC .ok reqEmpty 0 [] [] (by decide)).1,
   (skip_bypasses_all_counting optsSkipAll envDevC .ok reqEmpty 0 [] [] (by decide)).2.2.2.1⟩

/-- Modelled from the spec: one step of the rolling hash as the spec words it,
`hash = hash*31 + charCode`, wrapped to signed 32-bit. Stated separately from
the source's `hashStep` so the two formulations can be compared. -/
def hashStepSpec (h : Int) (c : Nat) : Int :=
  js32 (h * 31 + c)

/-- Modelled from the spec: the rolling hash of a whole string using the
multiply-by-31 step. -/
def hashIntSpec (s : String) : Int :=
  s.data.foldl (fun h c => hashStepSpec h c.toNat) 0

/-- C9: the synthetic-fingerprint key is a pure deterministic function of the
User-Agent and Accept-Language values, and the source's
`(hash << 5) - hash + char` step equals the spec's multiply-by-31 step, so the
key is the marker prefix followed by base-36 of the absolute value of the
spec's hash. -/
theorem fingerprint_hash_spec :
    (∀ h c, hashStep h c = hashStepSpec h c) ∧
    (∀ s, hashString s = toBase36 (Int.natAbs (hashIntSpec s))) ∧
    (∀ req, getClientIP false req =
       "unknown-" ++ toBase36 (Int.natAbs (hashIntSpec
         ((lookupHeader req "user-agent").getD "" ++
          (lookupHeader req "accept-language").getD "")))) ∧
    (∀ req req', lookupHeader req "user-agent" = lookupHeader req' "user-agent" →
       lookupHeader req "accept-language" = lookupHeader req' "accept-language" →
       getClientIP false req = getClientIP false req') := by
  have hstep : ∀ h c, hashStep h c = hashStepSpec h c := by
    intro h c
    unfold hashStep hashStepSpec js32
    omega
  have hfun : (fun (h : Int) (c : Char) => hashStep h c.toNat)
      = fun (h : Int) (c : Char) => hashStepSpec h c.toNat := by
    funext h c
    exact hstep h c.toNat
  have hstr : ∀ s, hashString s = toBase36 (Int.natAbs (hashIntSpec s)) := by
    intro s
    unfold hashString hashInt hashIntSpec
    rw [hfun]
  refine ⟨hstep, hstr, ?_, ?_⟩
  · intro req
    rw [getClientIP]
    simp only [if_false, Bool.false_eq_true]
    rw [hstr]
  · intro req req' h1 h2
    simp [getClientIP, h1, h2]

/-- Witness for C9 at concrete strings and requests. -/
theorem fingerprint_hash_spec_witness :
    hashString "abc" = toBase36 (Int.natAbs (hashIntSpec "abc")) ∧
    getClientIP false { headers := [("user-agent", "UA"), ("accept-language", "en")] }
      = getClientIP false { headers := [("accept-language", "en"), ("user-agent", "UA"), ("x-other", "z")] } :=
  ⟨fingerprint_hash_spec.2.1 "abc",
   fingerprint_hash_spec.2.2.2 _ _ (by decide) (by decide)⟩

/-- C10: a request that reaches the fingerprint branch with neither
User-Agent nor Accept-Language resolves to the shared key `unknown-0`
(the hash of the empty string renders as `0`). -/
theorem headerless_clients_share_bucket (tp : Bool) (req : Request)
    (hua : lookupHeader req "user-agent" = none)
    (hal : lookupHeader req "accept-language" = none)
    (hproxy : tp = false ∨ (lookupHeader req "x-forwarded-for" = none ∧
       lookupHeader req "x-real-ip" = none ∧
       lookupHeader req "cf-connecting-ip" = none)) :
    getClientIP tp req = "unknown-0" ∧ hashString "" = "0" := by
  constructor
  · rcases hproxy with h | ⟨h1, h2, h3⟩
    · subst h
      simp [getClientIP, hua, hal]
      decide
    · cases tp
      · simp [getClientIP, hua, hal]
        decide
      · simp [getClientIP, getHeaderT, h1, h2, h3, hua, hal, Option.orElse]
        decide
  · decide

/-- Witness for C10 at a concrete header-less request. -/
theorem headerless_clients_share_bucket_witness :
    lookupHeader reqEmpty "user-agent" = none ∧
    getClientIP true reqEmpty = "unknown-0" :=
  ⟨by decide,
   (headerless_clients_share_bucket true reqEmpty (by decide) (by decide)
     (Or.inr ⟨by decide, by decide, by decide⟩)).1⟩

/-- C8: with proxy trust enabled the resolver consults `x-forwarded-for`
(first comma-separated entry, trimmed), then `x-real-ip`, then
`cf-connecting-ip`, returning the first non-empty value; concretely,
`x-forwarded-for: "203.0.113.5, 10.0.0.1"` resolves to `203.0.113.5`. -/
theorem proxy_header_priority :
    (∀ req fwd, lookupHeader req "x-forwarded-for" = some fwd → fwd ≠ "" →
       (splitComma fwd).headD "" ≠ "" →
       getClientIP true req = trimString ((splitComma fwd).headD "")) ∧
    (∀ req ip,
       (∀ f, lookupHeader req "x-forwarded-for" = some f →
          f = "" ∨ (splitComma f).headD "" = "") →
       lookupHeader req "x-real-ip" = some ip → ip ≠ "" →
       getClientIP true req = ip) ∧
    (∀ req ip,
       (∀ f, lookupHeader req "x-forwarded-for" = some f →
          f = "" ∨ (splitComma f).headD "" = "") →
       (∀ r, lookupHeader req "x-real-ip" = some r → r = "") →
       lookupHeader req "cf-connecting-ip" = some ip → ip ≠ "" →
       getClientIP true req = ip) ∧
    getClientIP true { headers := [("x-forwarded-for", "203.0.113.5, 10.0.0.1")] }
      = "203.0.113.5" := by
  refine ⟨?_, ?_, ?_, by decide⟩
  · intro req fwd hf hne hfirst
    rw [List.headD_eq_head?] at hfirst
    simp [getClientIP, getHeaderT, hf, hne, hfirst, Option.orElse]
  · intro req ip hfwd hip hne
    cases hf : lookupHeader req "x-forwarded-for" with
    | none => simp [getClientIP, getHeaderT, hf, hip, hne, Option.orElse]
    | some f =>
        rcases hfwd f hf with h | h
        · simp [getClientIP, getHeaderT, hf, h, hip, hne, Option.orElse]
        · rw [List.headD_eq_head?] at h
          by_cases hfe : f = ""
          · simp [getClientIP, getHeaderT, hf, hfe, hip, hne, Option.orElse]
          · simp [getClientIP, getHeaderT, hf, hfe, h, hip, hne, Option.orElse]
  · intro req ip hfwd hreal hip hne
    cases hf : lookupHeader req "x-forwarded-for" with
    | none =>
        cases hrl : lookupHeader req "x-real-ip" with
        | none => simp [getClientIP, getHeaderT, hf, hrl, hip, hne, Option.orElse]
        | some r =>
            have hre := hreal r hrl
            simp [getClientIP, getHeaderT, hf, hrl, hre, hip, hne, Option.orElse]
    | some f =>
        have hfe : f = "" ∨ (splitComma f).headD "" = "" := hfwd f hf
        cases hrl : lookupHeader req "x-real-ip" with
        | none =>
            rcases hfe with h | h
            · simp [getClientIP, getHeaderT, hf, h, hrl, hip, hne, Option.orElse]
            · rw [List.headD_eq_head?] at h
              by_cases hb : f = ""
              · simp [getClientIP, getHeaderT, hf, hb, hrl, hip, hne, Option.orElse]
              · simp [getClientIP, getHeaderT, hf, hb, h, hrl, hip, hne, Option.orElse]
        | some r =>
            have hre := hreal r hrl
            rcases hfe with h | h
            · simp [getClientIP, getHeaderT, hf, h, hrl, hre, hip, hne, Option.orElse]
            · rw [List.headD_eq_head?] at h
              by_cases hb : f = ""
              · simp [getClientIP, getHeaderT, hf, hb, hrl, hre, hip, hne, Option.orElse]
              · simp [getClientIP, getHeaderT, hf, hb, h, hrl, hre, hip, hne, Option.orElse]

/-- Witness for C8 at the spec's concrete forwarded-for header. -/
theorem proxy_header_priority_witness :
    getClientIP true { headers := [("x-forwarded-for", "203.0.113.5, 10.0.0.1")] }
      = "203.0.113.5" ∧
    getClientIP true { headers := [("x-real-ip", "198.51.100.7")] }
      = "198.51.100.7" :=
  ⟨(proxy_header_priority.1 { headers := [("x-forwarded-for", "203.0.113.5, 10.0.0.1")] }
      "203.0.113.5, 10.0.0.1" (by decide) (by decide) (by decide)).trans (by decide),
   proxy_header_priority.2.1 { headers := [("x-real-ip", "198.51.100.7")] }
     "198.51.100.7" (by intro f hf; simp [lookupHeader, lookupAssoc] at hf)
     (by decide) (by decide)⟩

/-- When the key is absent or its window expired, the computed entry is a
fresh count-1 entry for the new window. -/
theorem fallbackEntry_fresh (fb : FallbackState) (key : String)
    (now windowMs : Nat)
    (h : ∀ e, lookupAssoc fb key = some e → e.resetTime < now) :
    fallbackEntry fb key now windowMs = RateLimitEntry.mk 1 (now + windowMs) := by
  unfold fallbackEntry
  cases hl : lookupAssoc fb key with
  | none => simp
  | some e => simp [h e hl]

/-- When the key has a live entry, the computed entry increments it in place. -/
theorem fallbackEntry_live (fb : FallbackState) (key : String)
    (now windowMs : Nat) (e : RateLimitEntry)
    (hl : lookupAssoc fb key = some e) (hlive : ¬ e.resetTime < now) :
    fallbackEntry fb key now windowMs
      = RateLimitEntry.mk (e.count + 1) e.resetTime := by
  unfold fallbackEntry
  simp [hl, hlive]

/-- C5: in the fallback table, a request for a key with no entry or an
expired entry creates a fresh entry with `resetTime = now + windowMs`, yields
count 1, and is allowed, irrespective of the prior count. -/
theorem fallback_window_reset (key : String) (limit windowMs : Nat)
    (message : String) (now : Nat) (rs : RedisState) (tr : List StoreOp)
    (dist : Nat) (fb : FallbackState) (hL : 1 ≤ limit)
    (hexp : ∀ e, lookupAssoc fb key = some e → e.resetTime < now) :
    (handleInMemoryRateLimit key limit windowMs message now rs tr dist fb).count
      = some 1 ∧
    lookupAssoc
      (handleInMemoryRateLimit key limit windowMs message now rs tr dist fb).fallback
      key = some (RateLimitEntry.mk 1 (now + windowMs)) ∧
    (handleInMemoryRateLimit key limit windowMs message now rs tr dist fb).outcome
      = Outcome.passed := by
  obtain ⟨-, -, -, -, hfb, hcount, -, hout, -⟩ :=
    handleInMemory_proj key limit windowMs message now rs tr dist fb
  have he := fallbackEntry_fresh fb key now windowMs hexp
  refine ⟨?_, ?_, ?_⟩
  · rw [hcount, he]
  · rw [hfb, he, lookupAssoc_setAssoc_self]
  · rw [hout, he]
    simp
    omega

/-- Witness for C5: a stale count-100 entry is reset to 1 and allowed. -/
theorem fallback_window_reset_witness :
    (handleInMemoryRateLimit "k" 5 60000 "m" 70000 [] [] 0
        [("k", RateLimitEntry.mk 100 69999)]).count = some 1 ∧
    (handleInMemoryRateLimit "k" 5 60000 "m" 70000 [] [] 0
        [("k", RateLimitEntry.mk 100 69999)]).outcome = Outcome.passed :=
  ⟨(fallback_window_reset "k" 5 60000 "m" 70000 [] [] 0
      [("k", RateLimitEntry.mk 100 69999)] (by decide)
      (by intro e he; simp [lookupAssoc] at he; rw [← he]; decide)).1,
   (fallback_window_reset "k" 5 60000 "m" 70000 [] [] 0
      [("k", RateLimitEntry.mk 100 69999)] (by decide)
      (by intro e he; simp [lookupAssoc] at he; rw [← he]; decide)).2.2⟩

/-- Header and rejection shape of the in-memory handler, phrased through its
reported count and remaining-window milliseconds. -/
theorem handleInMemory_shape (key : String) (limit windowMs : Nat)
    (message : String) (now : Nat) (rs : RedisState) (tr : List StoreOp)
    (dist : Nat) (fb : FallbackState) (c m : Nat)
    (hc : (handleInMemoryRateLimit key limit windowMs message now rs tr dist fb).count = some c)
    (hm : (handleInMemoryRateLimit key limit windowMs message now rs tr dist fb).resetMs = some m) :
    (handleInMemoryRateLimit key limit windowMs message now rs tr dist fb).headers
      = [("X-RateLimit-Limit", toString limit),
         ("X-RateLimit-Remaining", toString ((max (0 : Int) ((limit : Int) - (c : Int))).toNat)),
         ("X-RateLimit-Reset", toString ((m + 999) / 1000))] ++
        (if limit < c then [("Retry-After", toString ((m + 999) / 1000))] else []) ∧
    (limit < c →
      (handleInMemoryRateLimit key limit windowMs message now rs tr dist fb).status = some 429 ∧
      (handleInMemoryRateLimit key limit windowMs message now rs tr dist fb).outcome = Outcome.limited ∧
      (handleInMemoryRateLimit key limit windowMs message now rs tr dist fb).body
        = some { error := "Rate limit exceeded", message := message,
                 retryAfter := some ((m + 999) / 1000) }) := by
  obtain ⟨-, -, -, -, -, hcount, hms, hout, hstat, hhead, hbody⟩ :=
    handleInMemory_proj key limit windowMs message now rs tr dist fb
  rw [hcount] at hc
  rw [hms] at hm
  have hc' : (fallbackEntry fb key now windowMs).count = c := by
    exact Option.some_injective _ hc
  have hm' : (fallbackEntry fb key now windowMs).resetTime - now = m := by
    exact Option.some_injective _ hm
  rw [remaining_max]
  constructor
  · rw [hhead, hc', hm']
  · intro hlt
    rw [hstat, hout, hbody, hc', hm']
    simp [hlt]

/-- C4: every counted evaluation (distributed or fallback) carries the three
rate-limit headers computed from the policy limit, the post-increment count,
and the remaining window; when the count exceeds the limit the response is a
429 with a matching Retry-After header and JSON body. -/
theorem counted_response_shape (opts : RateLimitOptions) (env : EnvConfig)
    (b : RedisBehavior) (req : Request) (now : Nat) (rs : RedisState)
    (fs : FallbackState) (c m : Nat)
    (hc : (rateLimiter opts env b req now rs fs).count = some c)
    (hm : (rateLimiter opts env b req now rs fs).resetMs = some m) :
    (rateLimiter opts env b req now rs fs).headers
      = [("X-RateLimit-Limit", toString opts.limit),
         ("X-RateLimit-Remaining", toString ((max (0 : Int) ((opts.limit : Int) - (c : Int))).toNat)),
         ("X-RateLimit-Reset", toString ((m + 999) / 1000))] ++
        (if opts.limit < c then [("Retry-After", toString ((m + 999) / 1000))] else []) ∧
    (opts.limit < c →
      (rateLimiter opts env b req now rs fs).status = some 429 ∧
      (rateLimiter opts env b req now rs fs).outcome = Outcome.limited ∧
      (rateLimiter opts env b req now rs fs).body
        = some { error := "Rate limit exceeded", message := messageOf opts,
                 retryAfter := some ((m + 999) / 1000) }) := by
  by_cases hskip : skipOf opts req = true
  · rw [rateLimiter_skip opts env b req now rs fs hskip] at hc
    simp at hc
  · have hskip' : skipOf opts req = false := by
      simpa using hskip
    by_cases hb : b = RedisBehavior.unavailable
    · subst hb
      rw [rateLimiter_unavail opts env req now rs fs hskip'] at hc hm ⊢
      exact handleInMemory_shape _ _ _ _ _ _ _ _ _ _ _ hc hm
    · cases hatt : redisAttempt b ("ratelimit:" ++ keyOf opts env.trustProxy req)
        opts.windowMs now rs with
      | error e =>
          obtain ⟨st1, n, tr⟩ := e
          cases henv : env.nodeEnv with
          | production =>
              rw [rateLimiter_error_prod opts env b req now rs fs st1 n tr
                    hskip' hb henv hatt] at hc
              simp at hc
          | development =>
              rw [rateLimiter_error_dev opts env b req now rs fs st1 n tr
                    hskip' hb henv hatt] at hc hm ⊢
              exact handleInMemory_shape _ _ _ _ _ _ _ _ _ _ _ hc hm
      | ok v =>
          obtain ⟨cnt, ttl, st2, tr⟩ := v
          obtain ⟨-, hstat, -, -, -, hcount, hms, -, -, hhead, hbody⟩ :=
            rateLimiter_ok_proj opts env b req now rs fs cnt ttl st2 tr
              hskip' hb hatt
          rw [hcount] at hc
          rw [hms] at hm
          have hc' : cnt = c := Option.some_injective _ hc
          have hm' : (if 0 < ttl then ttl.toNat else opts.windowMs) = m :=
            Option.some_injective _ hm
          subst hc'
          rw [remaining_max]
          constructor
          · rw [hhead, hm']
          · intro hlt
            have hout := (rateLimiter_ok_proj opts env b req now rs fs cnt ttl
              st2 tr hskip' hb hatt).1
            rw [hstat, hout, hbody, hm']
            simp [hlt]

/-- Witness for C4: the second request of a limit-1 policy is counted with
count 2 and rejected with the full header set. -/
theorem counted_response_shape_witness :
    (rateLimiter optsOne envDevC .unavailable reqEmpty 0 []
        [("ratelimit:unknown-0", RateLimitEntry.mk 1 1000)]).count = some 2 ∧
    (rateLimiter optsOne envDevC .unavailable reqEmpty 0 []
        [("ratelimit:unknown-0", RateLimitEntry.mk 1 1000)]).headers
      = [("X-RateLimit-Limit", "1"), ("X-RateLimit-Remaining", "0"),
         ("X-RateLimit-Reset", "1"), ("Retry-After", "1")] ∧
    (rateLimiter optsOne envDevC .unavailable reqEmpty 0 []
        [("ratelimit:unknown-0", RateLimitEntry.mk 1 1000)]).status = some 429 :=
  ⟨by decide,
   ((counted_response_shape optsOne envDevC .unavailable reqEmpty 0 []
      [("ratelimit:unknown-0", RateLimitEntry.mk 1 1000)] 2 1000
      (by decide) (by decide)).1).trans (by decide),
   ((counted_response_shape optsOne envDevC .unavailable reqEmpty 0 []
      [("ratelimit:unknown-0", RateLimitEntry.mk 1 1000)] 2 1000
      (by decide) (by decide)).2 (by decide)).1⟩

/-- C6: in the distributed path, `pexpire windowMs` is performed exactly when
the atomic increment returned 1; an increment returning a larger value leaves
the key's expiry untouched, preserving fixed-window semantics. -/
theorem expiry_set_only_on_creation (opts : RateLimitOptions) (env : EnvConfig)
    (req : Request) (now : Nat) (rs : RedisState) (fs : FallbackState)
    (K : String) (hskip : skipOf opts req = false)
    (hK : K = "ratelimit:" ++ keyOf opts env.trustProxy req) :
    (StoreOp.pexpire K opts.windowMs ∈ (rateLimiter opts env .ok req now rs fs).trace
       ↔ (rateLimiter opts env .ok req now rs fs).count = some 1) ∧
    (∀ c, (rateLimiter opts env .ok req now rs fs).count = some c → ¬ c = 1 →
       ∃ e, redisLookup rs now K = some e ∧
         lookupAssoc (rateLimiter opts env .ok req now rs fs).redis K
           = some (RedisEntry.mk c e.expireAt)) := by
  subst hK
  have hb : ¬ RedisBehavior.ok = RedisBehavior.unavailable := by decide
  rcases redisAttempt_ok_shape ("ratelimit:" ++ keyOf opts env.trustProxy req)
      opts.windowMs now rs with ⟨hatt, hone⟩ | ⟨hatt, hone⟩
  · obtain ⟨-, -, -, -, htr, hcount, -, -, -, -, -⟩ :=
      rateLimiter_ok_proj opts env .ok req now rs fs _ _ _ _ hskip hb hatt
    constructor
    · rw [htr, hcount, hone]
      simp
    · intro c hc hne
      rw [hcount] at hc
      have hceq := Option.some_injective _ hc
      omega
  · obtain ⟨-, -, hredis, -, htr, hcount, -, -, -, -, -⟩ :=
      rateLimiter_ok_proj opts env .ok req now rs fs _ _ _ _ hskip hb hatt
    constructor
    · rw [htr, hcount]
      simp [hone]
    · intro c hc hne
      rw [hcount] at hc
      have hceq := Option.some_injective _ hc
      obtain ⟨e, hl, hv, hst⟩ := redisIncr_ne_one rs now
        ("ratelimit:" ++ keyOf opts env.trustProxy req) hone
      refine ⟨e, hl, ?_⟩
      rw [hredis, hst, lookupAssoc_setAssoc_self]
      rw [hv] at hceq
      rw [hceq]

/-- Witness for C6 on a store where the key is already live: no expiry write
happens and the stored expiry is preserved. -/
theorem expiry_set_only_on_creation_witness :
    ¬ StoreOp.pexpire "ratelimit:unknown-0" 1000 ∈
        (rateLimiter optsOne envDevC .ok reqEmpty 0
          [("ratelimit:unknown-0", RedisEntry.mk 3 (some 800))] []).trace ∧
    lookupAssoc (rateLimiter optsOne envDevC .ok reqEmpty 0
          [("ratelimit:unknown-0", RedisEntry.mk 3 (some 800))] []).redis
        "ratelimit:unknown-0" = some (RedisEntry.mk 4 (some 800)) := by
  have h := expiry_set_only_on_creation optsOne envDevC reqEmpty 0
    [("ratelimit:unknown-0", RedisEntry.mk 3 (some 800))] []
    "ratelimit:unknown-0" (by decide) (by decide)
  constructor
  · intro hmem
    have h1 := h.1.mp hmem
    revert h1
    decide
  · obtain ⟨e, he, hl⟩ := h.2 4 (by decide) (by decide)
    have hlk : redisLookup [("ratelimit:unknown-0", RedisEntry.mk 3 (some 800))]
        0 "ratelimit:unknown-0" = some (RedisEntry.mk 3 (some 800)) := by decide
    have he' : RedisEntry.mk 3 (some 800) = e :=
      Option.some_injective _ (hlk.symm.trans he)
    rw [hl, ← he']

/-- Counterexample to C1 as stated: in production with the distributed store
unavailable (not configured / reported down), the middleware does NOT return
503 — it falls back to the in-process table, mutating it. -/
theorem production_unavailable_uses_fallback_counterexample :
    envProdC.nodeEnv = NodeEnv.production ∧
    skipOf optsBasic reqEmpty = false ∧
    (rateLimiter optsBasic envProdC .unavailable reqEmpty 0 [] []).outcome
      = Outcome.passed ∧
    ¬ (rateLimiter optsBasic envProdC .unavailable reqEmpty 0 [] []).status
      = some 503 ∧
    (rateLimiter optsBasic envProdC .unavailable reqEmpty 0 [] []).fallback
      = [("ratelimit:unknown-0", RateLimitEntry.mk 1 60000)] ∧
    (rateLimiter optsBasic envProdC .unavailable reqEmpty 0 [] []).localIncrs
      = 1 := by
  decide

/-- C1 amended: in production, when a distributed-store operation that the
middleware performs throws, the response is 503 and the fallback table is
never touched; but when the store is unavailable (not configured or reported
down), the middleware falls back to the in-process table even in production. -/
theorem production_store_error_fails_closed (opts : RateLimitOptions)
    (env : EnvConfig) (b : RedisBehavior) (req : Request) (now : Nat)
    (rs : RedisState) (fs : FallbackState)
    (hskip : skipOf opts req = false)
    (henv : env.nodeEnv = NodeEnv.production) :
    (∀ st1 n tr,
       redisAttempt b ("ratelimit:" ++ keyOf opts env.trustProxy req)
           opts.windowMs now rs = .error (st1, n, tr) →
       (rateLimiter opts env b req now rs fs).outcome = Outcome.unavailable ∧
       (rateLimiter opts env b req now rs fs).status = some 503 ∧
       (rateLimiter opts env b req now rs fs).headers = [] ∧
       (rateLimiter opts env b req now rs fs).fallback = fs ∧
       (rateLimiter opts env b req now rs fs).localIncrs = 0) ∧
    (b = RedisBehavior.unavailable →
       (rateLimiter opts env b req now rs fs).localIncrs = 1 ∧
       ¬ (rateLimiter opts env b req now rs fs).outcome = Outcome.unavailable) := by
  constructor
  · intro st1 n tr hatt
    by_cases hb : b = RedisBehavior.unavailable
    · exact absurd hatt (redisAttempt_not_error b _ _ _ _ (Or.inr hb) _)
    · rw [rateLimiter_error_prod opts env b req now rs fs st1 n tr
            hskip hb henv hatt]
      exact ⟨rfl, rfl, rfl, rfl, rfl⟩
  · intro hb
    subst hb
    rw [rateLimiter_unavail opts env req now rs fs hskip]
    obtain ⟨hloc, -, -, -, -, -, -, hout, -, -, -⟩ :=
      handleInMemory_proj ("ratelimit:" ++ keyOf opts env.trustProxy req)
        opts.limit opts.windowMs (messageOf opts) now rs [] 0 fs
    refine ⟨hloc, ?_⟩
    rw [hout]
    by_cases h : opts.limit <
        (fallbackEntry fs ("ratelimit:" ++ keyOf opts env.trustProxy req)
          now opts.windowMs).count <;> simp [h]

/-- Witness for the amended C1: a failing increment in production yields 503
and an untouched fallback table; an unavailable store falls back. -/
theorem production_store_error_fails_closed_witness :
    (rateLimiter optsBasic envProdC .failIncr reqEmpty 0 [] []).outcome
      = Outcome.unavailable ∧
    (rateLimiter optsBasic envProdC .failIncr reqEmpty 0 [] []).fallback = [] ∧
    (rateLimiter optsBasic envProdC .unavailable reqEmpty 0 [] []).localIncrs = 1 := by
  have h1 := (production_store_error_fails_closed optsBasic envProdC .failIncr
    reqEmpty 0 [] [] (by decide) (by decide)).1 [] 0 []
    (redisAttempt_failIncr _ _ _ _)
  have h2 := (production_store_error_fails_closed optsBasic envProdC .unavailable
    reqEmpty 0 [] [] (by decide) (by decide)).2 (by decide)
  exact ⟨h1.1, h1.2.2.2.1, h2.1⟩

/-- Counterexample to C3 as stated: a non-skipped evaluation whose distributed
increment throws in production mutates NO shared counter state at all (and
still produces an error response), so "exactly once regardless of outcome"
fails. -/
theorem mutation_zero_counterexample :
    skipOf optsBasic reqEmpty = false ∧
    (rateLimiter optsBasic envProdC .failIncr reqEmpty 0 [] []).outcome
      = Outcome.unavailable ∧
    (rateLimiter optsBasic envProdC .failIncr reqEmpty 0 [] []).distIncrs
      + (rateLimiter optsBasic envProdC .failIncr reqEmpty 0 [] []).localIncrs
      = 0 := by
  decide

/-- C3 amended: a non-skipped evaluation mutates shared counter state exactly
once whenever no store operation throws (all Allow/Reject outcomes of the pure
distributed and pure fallback paths); when an operation throws, the mutation
count is 0 (production 503 with the increment itself failing), 1 (production
503 after a completed increment, or development fallback after a failed
increment), or 2 (development fallback after a completed increment). -/
theorem mutation_count_characterization (opts : RateLimitOptions)
    (env : EnvConfig) (b : RedisBehavior) (req : Request) (now : Nat)
    (rs : RedisState) (fs : FallbackState)
    (hskip : skipOf opts req = false) :
    ((b = RedisBehavior.ok ∨ b = RedisBehavior.unavailable) →
       (rateLimiter opts env b req now rs fs).distIncrs
         + (rateLimiter opts env b req now rs fs).localIncrs = 1) ∧
    (b = RedisBehavior.failIncr →
       (rateLimiter opts env b req now rs fs).distIncrs
         + (rateLimiter opts env b req now rs fs).localIncrs
         = if env.nodeEnv = NodeEnv.production then 0 else 1) ∧
    (b = RedisBehavior.failPttl →
       (rateLimiter opts env b req now rs fs).distIncrs
         + (rateLimiter opts env b req now rs fs).localIncrs
         = if env.nodeEnv = NodeEnv.production then 1 else 2) ∧
    (b = RedisBehavior.failPexpire →
       (redisIncr rs now ("ratelimit:" ++ keyOf opts env.trustProxy req)).1 = 1 →
       (rateLimiter opts env b req now rs fs).distIncrs
         + (rateLimiter opts env b req now rs fs).localIncrs
         = if env.nodeEnv = NodeEnv.production then 1 else 2) ∧
    (b = RedisBehavior.failPexpire →
       ¬ (redisIncr rs now ("ratelimit:" ++ keyOf opts env.trustProxy req)).1 = 1 →
       (rateLimiter opts env b req now rs fs).distIncrs
         + (rateLimiter opts env b req now rs fs).localIncrs = 1) := by
  refine ⟨?_, ?_, ?_, ?_, ?_⟩
  · rintro (hb | hb) <;> subst hb
    · rcases redisAttempt_ok_shape ("ratelimit:" ++ keyOf opts env.trustProxy req)
          opts.windowMs now rs with ⟨hatt, -⟩ | ⟨hatt, -⟩ <;>
      · obtain ⟨-, -, -, -, -, -, -, hdist, hloc, -, -⟩ :=
          rateLimiter_ok_proj opts env .ok req now rs fs _ _ _ _ hskip
            (by decide) hatt
        rw [hdist, hloc]
    · rw [rateLimiter_unavail opts env req now rs fs hskip]
      obtain ⟨hloc, hdist, -⟩ :=
        handleInMemory_proj ("ratelimit:" ++ keyOf opts env.trustProxy req)
          opts.limit opts.windowMs (messageOf opts) now rs [] 0 fs
      rw [hdist, hloc]
  · intro hb
    subst hb
    have hatt := redisAttempt_failIncr
      ("ratelimit:" ++ keyOf opts env.trustProxy req) opts.windowMs now rs
    cases henv : env.nodeEnv with
    | production =>
        rw [rateLimiter_error_prod opts env _ req now rs fs _ _ _
              hskip (by decide) henv hatt]
        simp [henv]
    | development =>
        rw [rateLimiter_error_dev opts env _ req now rs fs _ _ _
              hskip (by decide) henv hatt]
        obtain ⟨hloc, hdist, -⟩ :=
          handleInMemory_proj ("ratelimit:" ++ keyOf opts env.trustProxy req)
            opts.limit opts.windowMs (messageOf opts) now rs [] 0 fs
        rw [hdist, hloc]
        simp [henv]
  · intro hb
    subst hb
    obtain ⟨st', tr, hatt⟩ := redisAttempt_failPttl
      ("ratelimit:" ++ keyOf opts env.trustProxy req) opts.windowMs now rs
    cases henv : env.nodeEnv with
    | production =>
        rw [rateLimiter_error_prod opts env _ req now rs fs _ _ _
              hskip (by decide) henv hatt]
        simp [henv]
    | development =>
        rw [rateLimiter_error_dev opts env _ req now rs fs _ _ _
              hskip (by decide) henv hatt]
        obtain ⟨hloc, hdist, -⟩ :=
          handleInMemory_proj ("ratelimit:" ++ keyOf opts env.trustProxy req)
            opts.limit opts.windowMs (messageOf opts) now st' tr 1 fs
        rw [hdist, hloc]
        simp [henv]
  · intro hb hone
    subst hb
    have hatt := redisAttempt_failPexpire_one
      ("ratelimit:" ++ keyOf opts env.trustProxy req) opts.windowMs now rs hone
    cases henv : env.nodeEnv with
    | production =>
        rw [rateLimiter_error_prod opts env _ req now rs fs _ _ _
              hskip (by decide) henv hatt]
        simp [henv]
    | development =>
        rw [rateLimiter_error_dev opts env _ req now rs fs _ _ _
              hskip (by decide) henv hatt]
        obtain ⟨hloc, hdist, -⟩ :=
          handleInMemory_proj ("ratelimit:" ++ keyOf opts env.trustProxy req)
            opts.limit opts.windowMs (messageOf opts) now _ _ 1 fs
        rw [hdist, hloc]
        simp [henv]
  · intro hb hne
    subst hb
    have hatt := redisAttempt_failPexpire_ne
      ("ratelimit:" ++ keyOf opts env.trustProxy req) opts.windowMs now rs hne
    obtain ⟨-, -, -, -, -, -, -, hdist, hloc, -, -⟩ :=
      rateLimiter_ok_proj opts env _ req now rs fs _ _ _ _ hskip
        (by decide) hatt
    rw [hdist, hloc]

/-- Witness for the amended C3: concrete evaluations realizing mutation
counts 1 (ok), 0 (production failed increment) and 2 (development fallback
after a completed increment). -/
theorem mutation_count_characterization_witness :
    (rateLimiter optsBasic envDevC .ok reqEmpty 0 [] []).distIncrs
      + (rateLimiter optsBasic envDevC .ok reqEmpty 0 [] []).localIncrs = 1 ∧
    (rateLimiter optsBasic envProdC .failIncr reqEmpty 0 [] []).distIncrs
      + (rateLimiter optsBasic envProdC .failIncr reqEmpty 0 [] []).localIncrs = 0 ∧
    (rateLimiter optsBasic envDevC .failPttl reqEmpty 0 [] []).distIncrs
      + (rateLimiter optsBasic envDevC .failPttl reqEmpty 0 [] []).localIncrs = 2 := by
  have h1 := (mutation_count_characterization optsBasic envDevC .ok reqEmpty
    0 [] [] (by decide)).1 (Or.inl rfl)
  have h2 := (mutation_count_characterization optsBasic envProdC .failIncr
    reqEmpty 0 [] [] (by decide)).2.1 rfl
  have h3 := (mutation_count_characterization optsBasic envDevC .failPttl
    reqEmpty 0 [] [] (by decide)).2.2.1 rfl
  refine ⟨h1, ?_, ?_⟩
  · rw [h2]; decide
  · rw [h3]; decide

/-- One distributed-mode evaluation on a live singleton counter: the count
becomes `v + 1`, the expiry is untouched, the fallback is untouched, and the
request is rejected exactly when the new count exceeds the limit. -/
theorem rateLimiter_redis_step (opts : RateLimitOptions) (env : EnvConfig)
    (req : Request) (K : String) (t v T : Nat) (fb : FallbackState)
    (hskip : skipOf opts req = false)
    (hK : K = "ratelimit:" ++ keyOf opts env.trustProxy req)
    (hv : 1 ≤ v) (ht : t < T) :
    (rateLimiter opts env .ok req t [(K, RedisEntry.mk v (some T))] fb).outcome
      = (if opts.limit < v + 1 then Outcome.limited else Outcome.passed) ∧
    (rateLimiter opts env .ok req t [(K, RedisEntry.mk v (some T))] fb).redis
      = [(K, RedisEntry.mk (v + 1) (some T))] ∧
    (rateLimiter opts env .ok req t [(K, RedisEntry.mk v (some T))] fb).fallback
      = fb := by
  subst hK
  have hatt := redisAttempt_live ("ratelimit:" ++ keyOf opts env.trustProxy req)
    opts.windowMs t v T hv ht
  obtain ⟨hout, -, hredis, hfb, -⟩ :=
    rateLimiter_ok_proj opts env .ok req t _ fb _ _ _ _ hskip (by decide) hatt
  exact ⟨hout, hredis, hfb⟩

/-- The first distributed-mode evaluation on an empty store: the counter is
created at 1 with expiry a full window ahead, and the request is allowed for
any positive limit. -/
theorem rateLimiter_redis_first (opts : RateLimitOptions) (env : EnvConfig)
    (req : Request) (K : String) (t : Nat) (fb : FallbackState)
    (hskip : skipOf opts req = false)
    (hK : K = "ratelimit:" ++ keyOf opts env.trustProxy req)
    (hW : 1 ≤ opts.windowMs) :
    (rateLimiter opts env .ok req t [] fb).outcome
      = (if opts.limit < 1 then Outcome.limited else Outcome.passed) ∧
    (rateLimiter opts env .ok req t [] fb).redis
      = [(K, RedisEntry.mk 1 (some (t + opts.windowMs)))] ∧
    (rateLimiter opts env .ok req t [] fb).fallback = fb := by
  subst hK
  have hatt := redisAttempt_fresh ("ratelimit:" ++ keyOf opts env.trustProxy req)
    opts.windowMs t hW
  obtain ⟨hout, -, hredis, hfb, -⟩ :=
    rateLimiter_ok_proj opts env .ok req t [] fb _ _ _ _ hskip (by decide) hatt
  exact ⟨hout, hredis, hfb⟩

/-- One fallback-mode evaluation on a live singleton entry: the count becomes
`v + 1`, the window end is untouched, the distributed store is untouched, and
the request is rejected exactly when the new count exceeds the limit. -/
theorem rateLimiter_fb_step (opts : RateLimitOptions) (env : EnvConfig)
    (req : Request) (K : String) (t v T : Nat) (rs : RedisState)
    (hskip : skipOf opts req = false)
    (hK : K = "ratelimit:" ++ keyOf opts env.trustProxy req)
    (ht : ¬ T < t) :
    (rateLimiter opts env .unavailable req t rs [(K, RateLimitEntry.mk v T)]).outcome
      = (if opts.limit < v + 1 then Outcome.limited else Outcome.passed) ∧
    (rateLimiter opts env .unavailable req t rs [(K, RateLimitEntry.mk v T)]).redis
      = rs ∧
    (rateLimiter opts env .unavailable req t rs [(K, RateLimitEntry.mk v T)]).fallback
      = [(K, RateLimitEntry.mk (v + 1) T)] := by
  subst hK
  rw [rateLimiter_unavail opts env req t rs _ hskip]
  obtain ⟨-, -, hredis, -, hfb, -, -, hout, -, -, -⟩ :=
    handleInMemory_proj ("ratelimit:" ++ keyOf opts env.trustProxy req)
      opts.limit opts.windowMs (messageOf opts) t rs [] 0
      [(("ratelimit:" ++ keyOf opts env.trustProxy req), RateLimitEntry.mk v T)]
  have hent := fallbackEntry_live
    [(("ratelimit:" ++ keyOf opts env.trustProxy req), RateLimitEntry.mk v T)]
    ("ratelimit:" ++ keyOf opts env.trustProxy req) t opts.windowMs
    (RateLimitEntry.mk v T) (by simp [lookupAssoc]) ht
  refine ⟨?_, hredis, ?_⟩
  · rw [hout, hent]
  · rw [hfb, hent]
    simp [setAssoc]

/-- The first fallback-mode evaluation on an empty table: a fresh count-1
entry for the window ending at `t + windowMs`, allowed for any positive
limit. -/
theorem rateLimiter_fb_first (opts : RateLimitOptions) (env : EnvConfig)
    (req : Request) (K : String) (t : Nat) (rs : RedisState)
    (hskip : skipOf opts req = false)
    (hK : K = "ratelimit:" ++ keyOf opts env.trustProxy req) :
    (rateLimiter opts env .unavailable req t rs []).outcome
      = (if opts.limit < 1 then Outcome.limited else Outcome.passed) ∧
    (rateLimiter opts env .unavailable req t rs []).redis = rs ∧
    (rateLimiter opts env .unavailable req t rs []).fallback
      = [(K, RateLimitEntry.mk 1 (t + opts.windowMs))] := by
  subst hK
  rw [rateLimiter_unavail opts env req t rs [] hskip]
  obtain ⟨-, -, hredis, -, hfb, -, -, hout, -, -, -⟩ :=
    handleInMemory_proj ("ratelimit:" ++ keyOf opts env.trustProxy req)
      opts.limit opts.windowMs (messageOf opts) t rs [] 0 []
  have hent := fallbackEntry_fresh []
    ("ratelimit:" ++ keyOf opts env.trustProxy req) t opts.windowMs
    (by intro e he; simp [lookupAssoc] at he)
  refine ⟨?_, hredis, ?_⟩
  · rw [hout, hent]
  · rw [hfb, hent]
    simp [setAssoc]

/-- Distributed mode, steady state: starting from a live counter at `v`, the
`i`-th subsequent request within the window sees count `v + i + 1` and is
rejected exactly when that exceeds the limit. -/
theorem runRequests_redis_steady (opts : RateLimitOptions) (env : EnvConfig)
    (req : Request) (K : String) (T : Nat)
    (hskip : skipOf opts req = false)
    (hK : K = "ratelimit:" ++ keyOf opts env.trustProxy req) :
    ∀ (ts : List Nat) (v : Nat) (fb : FallbackState), 1 ≤ v →
      (∀ t ∈ ts, t < T) →
      ∀ i r, (runRequests opts env .ok req ts [(K, RedisEntry.mk v (some T))] fb).get? i
          = some r →
        r.outcome = if opts.limit < v + i + 1 then Outcome.limited else Outcome.passed := by
  intro ts
  induction ts with
  | nil =>
      intro v fb hv hts i r hget
      simp [runRequests] at hget
  | cons t ts ih =>
      intro v fb hv hts i r hget
      obtain ⟨hout, hredis, hfb⟩ := rateLimiter_redis_step opts env req K t v T fb
        hskip hK hv (hts t (List.mem_cons_self t ts))
      cases i with
      | zero =>
          have hr : rateLimiter opts env .ok req t [(K, RedisEntry.mk v (some T))] fb
              = r := Option.some_injective _ hget
          rw [← hr, hout]
      | succ j =>
          have hget' : (runRequests opts env .ok req ts
              (rateLimiter opts env .ok req t [(K, RedisEntry.mk v (some T))] fb).redis
              (rateLimiter opts env .ok req t [(K, RedisEntry.mk v (some T))] fb).fallback).get? j
              = some r := hget
          rw [hredis, hfb] at hget'
          have hres := ih (v + 1) fb (by omega)
            (fun u hu => hts u (List.mem_cons_of_mem t hu)) j r hget'
          have heq : v + 1 + j + 1 = v + (j + 1) + 1 := by omega
          rw [heq] at hres
          exact hres

/-- Fallback mode, steady state: starting from a live entry at `v`, the `i`-th
subsequent request within the window sees count `v + i + 1` and is rejected
exactly when that exceeds the limit. -/
theorem runRequests_fb_steady (opts : RateLimitOptions) (env : EnvConfig)
    (req : Request) (K : String) (T : Nat)
    (hskip : skipOf opts req = false)
    (hK : K = "ratelimit:" ++ keyOf opts env.trustProxy req) :
    ∀ (ts : List Nat) (v : Nat) (rs : RedisState),
      (∀ t ∈ ts, ¬ T < t) →
      ∀ i r, (runRequests opts env .unavailable req ts rs [(K, RateLimitEntry.mk v T)]).get? i
          = some r →
        r.outcome = if opts.limit < v + i + 1 then Outcome.limited else Outcome.passed := by
  intro ts
  induction ts with
  | nil =>
      intro v rs hts i r hget
      simp [runRequests] at hget
  | cons t ts ih =>
      intro v rs hts i r hget
      obtain ⟨hout, hredis, hfb⟩ := rateLimiter_fb_step opts env req K t v T rs
        hskip hK (hts t (List.mem_cons_self t ts))
      cases i with
      | zero =>
          have hr : rateLimiter opts env .unavailable req t rs [(K, RateLimitEntry.mk v T)]
              = r := Option.some_injective _ hget
          rw [← hr, hout]
      | succ j =>
          have hget' : (runRequests opts env .unavailable req ts
              (rateLimiter opts env .unavailable req t rs [(K, RateLimitEntry.mk v T)]).redis
              (rateLimiter opts env .unavailable req t rs [(K, RateLimitEntry.mk v T)]).fallback).get? j
              = some r := hget
          rw [hredis, hfb] at hget'
          have hres := ih (v + 1) rs
            (fun u hu => hts u (List.mem_cons_of_mem t hu)) j r hget'
          have heq : v + 1 + j + 1 = v + (j + 1) + 1 := by omega
          rw [heq] at hres
          exact hres

/-- C2: for any positive limit, a run of same-key non-skipped requests
starting on an empty store and arriving strictly within one window is allowed
on each of the first `limit` requests and rejected from the `(limit+1)`-th
on, in both the distributed and the fallback mode; the `i`-th response is
rejected exactly when its post-increment count `i + 1` exceeds the limit. -/
theorem window_off_by_one (opts : RateLimitOptions) (env : EnvConfig)
    (b : RedisBehavior) (req : Request) (t0 : Nat) (ts : List Nat)
    (hskip : skipOf opts req = false)
    (hb : b = RedisBehavior.ok ∨ b = RedisBehavior.unavailable)
    (hL : 1 ≤ opts.limit)
    (hwin : ∀ t ∈ t0 :: ts, t0 ≤ t ∧ t < t0 + opts.windowMs) :
    ∀ i r, (runRequests opts env b req (t0 :: ts) [] []).get? i = some r →
      r.outcome = if opts.limit < i + 1 then Outcome.limited else Outcome.passed := by
  have hW : 1 ≤ opts.windowMs := by
    have := (hwin t0 (List.mem_cons_self t0 ts)).2
    omega
  rcases hb with hb | hb <;> subst hb <;> intro i r hget
  · obtain ⟨hout, hredis, hfb⟩ := rateLimiter_redis_first opts env req
      ("ratelimit:" ++ keyOf opts env.trustProxy req) t0 [] hskip rfl hW
    cases i with
    | zero =>
        have hr : rateLimiter opts env .ok req t0 [] [] = r :=
          Option.some_injective _ hget
        rw [← hr, hout]
    | succ j =>
        have hget' : (runRequests opts env .ok req ts
            (rateLimiter opts env .ok req t0 [] []).redis
            (rateLimiter opts env .ok req t0 [] []).fallback).get? j
            = some r := hget
        rw [hredis, hfb] at hget'
        have hres := runRequests_redis_steady opts env req
          ("ratelimit:" ++ keyOf opts env.trustProxy req) (t0 + opts.windowMs)
          hskip rfl ts 1 [] (by omega)
          (fun u hu => (hwin u (List.mem_cons_of_mem t0 hu)).2) j r hget'
        have heq : 1 + j + 1 = j + 1 + 1 := by omega
        rw [heq] at hres
        exact hres
  · obtain ⟨hout, hredis, hfb⟩ := rateLimiter_fb_first opts env req
      ("ratelimit:" ++ keyOf opts env.trustProxy req) t0 [] hskip rfl
    cases i with
    | zero =>
        have hr : rateLimiter opts env .unavailable req t0 [] [] = r :=
          Option.some_injective _ hget
        rw [← hr, hout]
    | succ j =>
        have hget' : (runRequests opts env .unavailable req ts
            (rateLimiter opts env .unavailable req t0 [] []).redis
            (rateLimiter opts env .unavailable req t0 [] []).fallback).get? j
            = some r := hget
        rw [hredis, hfb] at hget'
        have hres := runRequests_fb_steady opts env req
          ("ratelimit:" ++ keyOf opts env.trustProxy req) (t0 + opts.windowMs)
          hskip rfl ts 1 [] (by
            intro u hu
            have := (hwin u (List.mem_cons_of_mem t0 hu)).2
            omega) j r hget'
        have heq : 1 + j + 1 = j + 1 + 1 := by omega
        rw [heq] at hres
        exact hres

/-- Witness for C2: with limit 1 and two in-window requests, the second is
rejected. -/
theorem window_off_by_one_witness :
    ((runRequests optsOne envDevC .ok reqEmpty [0, 1] [] []).get? 1).map
      EvalResult.outcome = some Outcome.limited := by
  have h := window_off_by_one optsOne envDevC .ok reqEmpty 0 [1] (by decide)
    (Or.inl rfl) (by decide) (by decide) 1
  cases hget : (runRequests optsOne envDevC .ok reqEmpty [0, 1] [] []).get? 1 with
  | none => exact absurd hget (by decide)
  | some r =>
      have ho : r.outcome = Outcome.limited := by
        rw [h r hget]
        decide
      simp [ho]
